import Mathlib

/-!
Verification of the nash shell evaluator (`internal/sh/shell.go`) and its
parser (`ast/tree.go`) against their natural-language specification.

The Go code is shallowly embedded: the scope chain (`Shell`), the runtime
object model (`Obj`), the tree-walker control flow (`executeTree`), the
loops (`executeFor`, `executeInfLoop`), the pipeline driver (`executePipe`),
command resolution (`getCommand`), exec-assignments (`executeExecAssign`),
the import resolution (`executeImport`) and indexed-variable evaluation
(`evalIndexedVar`) become Lean functions.  External effects (process
spawning, the filesystem, the process environment) are passed in as
explicit data: a pipeline stage is described by the outcomes of the calls
the driver makes on it, the filesystem is a function from paths to stat
results, and the process environment is an association list threaded
through.  Go maps are embedded as association lists whose lookup returns
the most recent binding.
-/

namespace NashShell

/-- Runtime value (`Obj` in `internal/sh`): a tagged union of string,
list of values, and function value (`StringType`, `ListType`, `FnType`).
Function values are identified here only by their name, which is all the
claims under verification inspect. -/
inductive Obj where
  | str (s : String)
  | list (elems : List Obj)
  | fn (name : String)

mutual

/-- Modelled from the spec: `Obj.String()` lives in a source file that was
not provided (`obj.go`); per the spec, "Strings stringify to themselves;
lists stringify element-by-element (implementation-defined join)".  The
join chosen here is a single space. -/
def Obj.string : Obj → String
  | .str s => s
  | .list l => objListString l
  | .fn n => n

/-- Helper for `Obj.string` on lists. -/
def objListString : List Obj → String
  | [] => ""
  | [o] => Obj.string o
  | o :: rest => Obj.string o ++ " " ++ objListString rest

end

/-- Association-list lookup, embedding a Go map read (`m[name]`): the most
recently inserted binding for a key wins. -/
def lookupA {α : Type} : List (String × α) → String → Option α
  | [], _ => none
  | (k, v) :: r, n => if k = n then some v else lookupA r n

/-- The scope chain (`Shell` in `internal/sh`).  Each scope owns a `vars`
map and an `env` map; only the root scope's `env` is ever consulted.  A
subscope (`NewSubShell`) carries a pointer to its parent; the root scope
(`NewShell`) has none.  Go map writes are embedded by prepending to the
association list. -/
inductive Shell where
  | rootS (vars env : List (String × Obj))
  | subS (vars env : List (String × Obj)) (parent : Shell)

/-- `Shell.GetVar` (shell.go:323): look in the scope's own `vars` first,
then walk the parent chain; absent everywhere gives `(nil, false)`. -/
def Shell.getVar : Shell → String → Option Obj
  | .rootS vars _, n => lookupA vars n
  | .subS vars _ p, n =>
    match lookupA vars n with
    | some v => some v
    | none => p.getVar n

/-- `Shell.Setvar` (shell.go:379): `sh.vars[name] = value` — writes only
the current scope's own map, never the parent chain. -/
def Shell.setvar : Shell → String → Obj → Shell
  | .rootS vars env, n, v => .rootS ((n, v) :: vars) env
  | .subS vars env p, n, v => .subS ((n, v) :: vars) env p

/-- `Shell.Setenv` (shell.go:295): a non-root scope delegates to its
parent; the root calls `Setvar`, writes its own `env` map and mirrors the
binding into the process environment via `os.Setenv(name, value.String())`.
The process environment is the second component, threaded explicitly. -/
def Shell.setenv : Shell → List (String × String) → String → Obj →
    Shell × List (String × String)
  | .subS vars env p, pe, n, v =>
    let r := p.setenv pe n v
    (.subS vars env r.1, r.2)
  | .rootS vars env, pe, n, v =>
    (.rootS ((n, v) :: vars) ((n, v) :: env), (n, Obj.string v) :: pe)

/-- The parent pointer of a scope, `none` on the root. -/
def Shell.parent : Shell → Option Shell
  | .rootS _ _ => none
  | .subS _ _ p => some p

/-- A scope's own `vars` map. -/
def Shell.ownVars : Shell → List (String × Obj)
  | .rootS vars _ => vars
  | .subS vars _ _ => vars

/-- The root scope's `vars` map, following the parent chain. -/
def Shell.rootVars : Shell → List (String × Obj)
  | .rootS vars _ => vars
  | .subS _ _ p => p.rootVars

/-- The root scope's `env` map, following the parent chain. -/
def Shell.rootEnv : Shell → List (String × Obj)
  | .rootS _ env => env
  | .subS _ _ p => p.rootEnv

/-- The `(vars, env)` maps of every non-root scope on the chain, outermost
first.  Used to state that `Setenv` leaves non-root scopes untouched. -/
def Shell.subFrames : Shell → List (List (String × Obj) × List (String × Obj))
  | .rootS _ _ => []
  | .subS vars env p => (vars, env) :: p.subFrames

/-- C3: `Setvar` on a scope `C` writes only `C`'s own vars map: afterwards
`GetVar n` on `C` yields `v`, the parent pointer (hence the parent scope
`P`, and everything `GetVar` returns on it) is unchanged, and for a name
with no binding in `C`'s own map, `GetVar` on `C` returns exactly what
`GetVar` returns on `P`. -/
theorem setvar_getvar_spec (C : Shell) (n : String) (v : Obj) :
    (C.setvar n v).getVar n = some v ∧
    (C.setvar n v).parent = C.parent ∧
    (C.setvar n v).ownVars = (n, v) :: C.ownVars ∧
    (∀ p, lookupA C.ownVars n = none → C.parent = some p →
      C.getVar n = p.getVar n) := by
  refine ⟨?_, ?_, ?_, ?_⟩
  · cases C <;> simp [Shell.setvar, Shell.getVar, lookupA]
  · cases C <;> simp [Shell.setvar, Shell.parent]
  · cases C <;> simp [Shell.setvar, Shell.ownVars]
  · intro p hlook hpar
    cases C with
    | rootS vars env => simp [Shell.parent] at hpar
    | subS vars env q =>
      simp [Shell.parent] at hpar
      simp [Shell.ownVars] at hlook
      simp [Shell.getVar, hlook, hpar]

/-- Witness for `setvar_getvar_spec`: a two-level chain where the name is
bound only in the parent. -/
theorem setvar_getvar_spec_witness :
    lookupA (Shell.subS [] [] (Shell.rootS [("m", Obj.str "1")] [])).ownVars "m" = none ∧
    (Shell.subS [] [] (Shell.rootS [("m", Obj.str "1")] [])).parent =
      some (Shell.rootS [("m", Obj.str "1")] []) ∧
    (Shell.subS [] [] (Shell.rootS [("m", Obj.str "1")] [])).getVar "m" =
      (Shell.rootS [("m", Obj.str "1")] []).getVar "m" :=
  ⟨rfl, rfl,
    (setvar_getvar_spec (Shell.subS [] [] (Shell.rootS [("m", Obj.str "1")] []))
      "m" (Obj.str "0")).2.2.2 _ rfl rfl⟩

/-- C4: `Setenv(n, v)` called anywhere on a scope chain delegates to the
root: afterwards the root's `env` and `vars` maps both bind `n` to `v`,
the process environment binds `n` to `str(v)`, and no non-root scope's
`vars` or `env` map is written. -/
theorem setenv_spec (S : Shell) (pe : List (String × String)) (n : String) (v : Obj) :
    lookupA (S.setenv pe n v).1.rootEnv n = some v ∧
    lookupA (S.setenv pe n v).1.rootVars n = some v ∧
    lookupA (S.setenv pe n v).2 n = some (Obj.string v) ∧
    (S.setenv pe n v).1.subFrames = S.subFrames := by
  induction S generalizing pe with
  | rootS vars env =>
    simp [Shell.setenv, Shell.rootEnv, Shell.rootVars, Shell.subFrames, lookupA]
  | subS vars env p ih =>
    obtain ⟨h1, h2, h3, h4⟩ := ih pe
    exact ⟨h1, h2, h3, by simp [Shell.setenv, Shell.subFrames, h4]⟩

/-- The evaluator's error carriers.  The Go code probes arbitrary `error`
values for three marker interfaces; the concrete carriers of the package
(`errIgnore`, `errInterrupted`, `errStopWalking`, shell.go:96-139) each
implement exactly one marker, and every other error implements none, so
the carriers form a sum.  `stopWalkingE` has the fixed message
`"return"` (`newErrStopWalking`). -/
inductive NashErr where
  | ignoreE (msg : String)
  | interruptedE (msg : String)
  | stopWalkingE
  | plainE (msg : String)
deriving DecidableEq

/-- `err.Error()` of an evaluator error. -/
def NashErr.message : NashErr → String
  | .ignoreE m => m
  | .interruptedE m => m
  | .stopWalkingE => "return"
  | .plainE m => m

/-- The `Ignore()` marker probe. -/
def NashErr.isIgnore : NashErr → Bool
  | .ignoreE _ => true
  | _ => false

/-- The `Interrupted()` marker probe. -/
def NashErr.isInterrupted : NashErr → Bool
  | .interruptedE _ => true
  | _ => false

/-- The `StopWalking()` marker probe. -/
def NashErr.isStopWalking : NashErr → Bool
  | .stopWalkingE => true
  | _ => false

/-- A node of the root statement list, described by what executing it
does.  `retN` is a `ReturnNode` (its payload is the evaluation outcome of
its expression, `none` for a bare `return`); every other node kind is
abstracted by the `(*Obj, error)` pair its `executeNode` dispatch case
produces. -/
inductive NodeB where
  | retN (expr : Option (Except String Obj))
  | plainN (res : Option Obj × Option NashErr)

/-- `Shell.executeNode` (shell.go:616), restricted to the part the claims
inspect: the `NodeReturn` case checks `sh.IsFn()` — in a non-function
scope the node yields the error `"Unexpected return outside of function
declaration."`; in a function scope `executeReturn` (shell.go:717)
evaluates the expression (a bare `return` skips evaluation) and pairs the
value with a fresh `errStopWalking`.  All other node kinds return their
abstracted outcome. -/
def executeNodeM (isFn : Bool) : NodeB → Option Obj × Option NashErr
  | .retN e =>
    if isFn then
      match e with
      | none => (none, some .stopWalkingE)
      | some (.error m) => (none, some (.plainE m))
      | some (.ok o) => (some o, some .stopWalkingE)
    else (none, some (.plainE "Unexpected return outside of function declaration."))
  | .plainN r => r

/-- The node loop of `Shell.executeTree` (shell.go:680-712): on a node's
error, `Ignore()` continues the walk, `Interrupted()` aborts with
`(nil, err)`, `StopWalking()` under `stopable` ends the walk with
`(obj, nil)`, anything else returns `(obj, err)`. -/
def walkNodes (isFn stopable : Bool) : List NodeB → Option Obj × Option NashErr
  | [] => (none, none)
  | n :: ns =>
    match executeNodeM isFn n with
    | (obj, some e) =>
      if e.isIgnore then walkNodes isFn stopable ns
      else if e.isInterrupted then (none, some e)
      else if stopable && e.isStopWalking then (obj, none)
      else (obj, some e)
    | (_, none) => walkNodes isFn stopable ns

/-- `Shell.executeTree` (shell.go:673): a nil tree or nil root errors,
otherwise the root node list is walked. -/
def executeTreeM (isFn : Bool) (tr : Option (List NodeB)) (stopable : Bool) :
    Option Obj × Option NashErr :=
  match tr with
  | none => (none, some (.plainE "empty abstract syntax tree to execute"))
  | some ns => walkNodes isFn stopable ns

/-- C2: `executeTree` probes exactly three error carriers per failing
node — `Ignore()` skips the node and continues, `Interrupted()` aborts
immediately with the error, `StopWalking()` under `stopable = true` ends
the walk returning the node's result object with nil error — and every
other error (including `StopWalking` when not stopable) propagates.  A
`ReturnNode` is only legal when the scope's `isFn` flag is true, erring
otherwise, and when legal raises the stop-walking carrier alongside the
evaluated return value. -/
theorem executeTree_control_flow :
    (∀ isFn stopable obj m ns,
      executeTreeM isFn (some (NodeB.plainN (obj, some (.ignoreE m)) :: ns)) stopable =
        executeTreeM isFn (some ns) stopable) ∧
    (∀ isFn stopable obj m ns,
      executeTreeM isFn (some (NodeB.plainN (obj, some (.interruptedE m)) :: ns)) stopable =
        (none, some (.interruptedE m))) ∧
    (∀ isFn obj ns,
      executeTreeM isFn (some (NodeB.plainN (obj, some .stopWalkingE) :: ns)) true =
        (obj, none)) ∧
    (∀ isFn obj ns,
      executeTreeM isFn (some (NodeB.plainN (obj, some .stopWalkingE) :: ns)) false =
        (obj, some .stopWalkingE)) ∧
    (∀ isFn stopable obj m ns,
      executeTreeM isFn (some (NodeB.plainN (obj, some (.plainE m)) :: ns)) stopable =
        (obj, some (.plainE m))) ∧
    (∀ e, executeNodeM false (NodeB.retN e) =
      (none, some (.plainE "Unexpected return outside of function declaration."))) ∧
    (∀ o, executeNodeM true (NodeB.retN (some (.ok o))) = (some o, some .stopWalkingE)) ∧
    executeNodeM true (NodeB.retN none) = (none, some .stopWalkingE) ∧
    NashErr.isStopWalking .stopWalkingE = true := by
  refine ⟨?_, ?_, ?_, ?_, ?_, ?_, ?_, rfl, rfl⟩
  · intro isFn stopable obj m ns
    simp [executeTreeM, walkNodes, executeNodeM, NashErr.isIgnore]
  · intro isFn stopable obj m ns
    simp [executeTreeM, walkNodes, executeNodeM, NashErr.isIgnore, NashErr.isInterrupted]
  · intro isFn obj ns
    simp [executeTreeM, walkNodes, executeNodeM, NashErr.isIgnore,
      NashErr.isInterrupted, NashErr.isStopWalking]
  · intro isFn obj ns
    simp [executeTreeM, walkNodes, executeNodeM, NashErr.isIgnore,
      NashErr.isInterrupted, NashErr.isStopWalking]
  · intro isFn stopable obj m ns
    simp [executeTreeM, walkNodes, executeNodeM, NashErr.isIgnore,
      NashErr.isInterrupted, NashErr.isStopWalking]
  · intro e
    cases e with
    | none => rfl
    | some r => cases r <;> rfl
  · intro o
    rfl

/-- `Interrupted()` probe on an optional error (`err.(interruptedError)`
type assertion on a possibly-nil error). -/
def isInterruptedOpt : Option NashErr → Bool
  | some e => e.isInterrupted
  | none => false

/-- The error built by a loop when it observes the interrupt flag:
`newErrInterrupted(err.Error())` when the body also erred, else
`newErrInterrupted("loop interrupted")` (shell.go:1682-1686, 1749-1753). -/
def loopInterruptErr : Option NashErr → NashErr
  | some e => .interruptedE e.message
  | none => .interruptedE "loop interrupted"

/-- The iteration loop of `Shell.executeFor` (shell.go:1730-1761).  One
iteration is described by `(setsFlag, body)`: `setsFlag` records whether
the signal listener sets the root `interrupted` flag during that body's
execution, and `body` is the loop body's node list, executed by
`executeTree(n.Tree(), true)`.  After each body: an `Interrupted()` error
from the body returns it as is; otherwise, under the shared mutex, a set
interrupt flag is cleared and the loop fails with an interrupted-flavored
error; otherwise any body error propagates; otherwise the next iteration
runs.  The `Bool` result is the root `interrupted` flag after the loop. -/
def executeForM (isFn : Bool) : Bool → List (Bool × List NodeB) → Bool × Option NashErr
  | flag, [] => (flag, none)
  | flag, iter :: rest =>
    let f := flag || iter.1
    let err := (executeTreeM isFn (some iter.2) true).2
    if isInterruptedOpt err then (f, err)
    else if f then (false, some (loopInterruptErr err))
    else
      match err with
      | some e => (f, some e)
      | none => executeForM isFn f rest

/-- `Shell.executeInfLoop` (shell.go:1661), the body-per-iteration loop of
`for` without an `in` clause, with the same per-iteration checks as
`executeForM`.  The real loop is infinite; it is run here against a finite
trace of iteration descriptions, `none` meaning the trace was exhausted
with the loop still running. -/
def executeInfLoopM (isFn : Bool) : Bool → List (Bool × List NodeB) →
    Option (Bool × Option NashErr)
  | _, [] => none
  | flag, iter :: rest =>
    let f := flag || iter.1
    let err := (executeTreeM isFn (some iter.2) true).2
    if isInterruptedOpt err then some (f, err)
    else if f then some (false, some (loopInterruptErr err))
    else
      match err with
      | some e => some (f, some e)
      | none => executeInfLoopM isFn f rest

/-- C5: in both for-loop forms, when the root `interrupted` flag is set by
the time an iteration's body completes (and the body itself did not end
in an interrupted error), the boundary check observes the flag, clears it
(final flag `false`), and the loop terminates with an
interrupted-flavored error; an interrupted error arising from within the
body also terminates the loop (it is returned as is). -/
theorem executeFor_interrupt (isFn flag setsFlag : Bool) (body : List NodeB)
    (rest : List (Bool × List NodeB)) :
    ((flag || setsFlag) = true →
      isInterruptedOpt (executeTreeM isFn (some body) true).2 = false →
      executeForM isFn flag ((setsFlag, body) :: rest) =
        (false, some (loopInterruptErr (executeTreeM isFn (some body) true).2)) ∧
      executeInfLoopM isFn flag ((setsFlag, body) :: rest) =
        some (false, some (loopInterruptErr (executeTreeM isFn (some body) true).2)) ∧
      (loopInterruptErr (executeTreeM isFn (some body) true).2).isInterrupted = true) ∧
    (∀ e, (executeTreeM isFn (some body) true).2 = some e → e.isInterrupted = true →
      executeForM isFn flag ((setsFlag, body) :: rest) = (flag || setsFlag, some e) ∧
      executeInfLoopM isFn flag ((setsFlag, body) :: rest) =
        some (flag || setsFlag, some e)) := by
  constructor
  · intro hf hni
    refine ⟨?_, ?_, ?_⟩
    · simp [executeForM, hf, hni]
    · simp [executeInfLoopM, hf, hni]
    · cases h : (executeTreeM isFn (some body) true).2 <;>
        simp [loopInterruptErr, NashErr.isInterrupted]
  · intro e he hint
    have hio : isInterruptedOpt (some e) = true := by
      simp [isInterruptedOpt, hint]
    exact ⟨by simp [executeForM, he, hio], by simp [executeInfLoopM, he, hio]⟩

/-- Witness for `executeFor_interrupt`: a body that completes cleanly
while the signal listener sets the flag, and a body that itself ends
interrupted. -/
theorem executeFor_interrupt_witness :
    ((false || true) = true ∧
      isInterruptedOpt (executeTreeM true (some [NodeB.plainN (none, none)]) true).2 = false ∧
      executeForM true false [(true, [NodeB.plainN (none, none)])] =
        (false, some (.interruptedE "loop interrupted"))) ∧
    ((executeTreeM true (some [NodeB.plainN (none, some (.interruptedE "x"))]) true).2 =
        some (.interruptedE "x") ∧
      executeForM true false [(false, [NodeB.plainN (none, some (.interruptedE "x"))])] =
        (false, some (.interruptedE "x"))) := by
  constructor
  · refine ⟨rfl, rfl, ?_⟩
    exact ((executeFor_interrupt true false true [NodeB.plainN (none, none)] []).1
      rfl rfl).1
  · refine ⟨rfl, ?_⟩
    exact ((executeFor_interrupt true false false
      [NodeB.plainN (none, some (.interruptedE "x"))] []).2 _ rfl rfl).1

/-- Nodes that execute without error let the walk pass over them. -/
theorem walkNodes_append_ok (isFn stopable : Bool) (pre ns : List NodeB)
    (hpre : ∀ n ∈ pre, (executeNodeM isFn n).2 = none) :
    walkNodes isFn stopable (pre ++ ns) = walkNodes isFn stopable ns := by
  induction pre with
  | nil => rfl
  | cons n rest ih =>
    have hn : (executeNodeM isFn n).2 = none := hpre n (by simp)
    have hrest : ∀ m ∈ rest, (executeNodeM isFn m).2 = none := fun m hm =>
      hpre m (by simp [hm])
    simp only [List.cons_append, walkNodes]
    cases h : executeNodeM isFn n with
    | mk o e =>
      rw [h] at hn
      cases e with
      | some e' => exact absurd hn (by simp)
      | none => simpa using ih hrest

/-- C9: both for-loop forms run each body with a stopable tree walk
(`executeTree(body, true)`), so a `return` directly inside the body is
consumed at the body's boundary as a normal completion of that body and
the loop simply proceeds with its remaining iterations, instead of the
return propagating out of the enclosing function body. -/
theorem for_body_return_consumed (pre post : List NodeB) (o : Obj)
    (rest : List (Bool × List NodeB))
    (hpre : ∀ n ∈ pre, (executeNodeM true n).2 = none) :
    executeTreeM true (some (pre ++ NodeB.retN (some (.ok o)) :: post)) true =
      (some o, none) ∧
    executeForM true false ((false, pre ++ NodeB.retN (some (.ok o)) :: post) :: rest) =
      executeForM true false rest ∧
    executeInfLoopM true false ((false, pre ++ NodeB.retN (some (.ok o)) :: post) :: rest) =
      executeInfLoopM true false rest := by
  have hbody : executeTreeM true (some (pre ++ NodeB.retN (some (.ok o)) :: post)) true =
      (some o, none) := by
    show walkNodes true true (pre ++ NodeB.retN (some (.ok o)) :: post) = (some o, none)
    rw [walkNodes_append_ok true true pre _ hpre]
    simp [walkNodes, executeNodeM, NashErr.isIgnore, NashErr.isInterrupted,
      NashErr.isStopWalking]
  refine ⟨hbody, ?_, ?_⟩
  · simp [executeForM, hbody, isInterruptedOpt]
  · simp [executeInfLoopM, hbody, isInterruptedOpt]

/-- Witness for `for_body_return_consumed`: a body that is a single
`return "r"` inside a single-iteration loop. -/
theorem for_body_return_consumed_witness :
    executeForM true false [(false, [NodeB.retN (some (.ok (Obj.str "r")))])] =
      executeForM true false [] ∧
    executeForM true false [] = (false, none) := by
  constructor
  · exact (for_body_return_consumed [] [] (Obj.str "r") []
      (by intro n hn; cases hn)).2.1
  · rfl

/-- A runner error as `executePipe` consumes it: its message string
(`err.Error()`) and, optionally, the exit code it carries. -/
structure PErr where
  msg : String
  code : Option String
deriving DecidableEq, Repr

/-- One pipeline stage, described by the outcomes of the calls
`executePipe` makes on it, in program order: `getCommand` (shell.go:856,
whose ignore flag from a `-` name prefix is also reported on error),
`SetArgs` (870), `setRedirects` (881 for non-last stages, 918 for the
last), `StdoutPipe` (905, non-last stages only), `Start` (929) and
`Wait` (941).  `none` means the call succeeds. -/
structure Stage where
  ignore : Bool
  getCmdErr : Option PErr
  setArgsErr : Option PErr
  redirectErr : Option PErr
  stdoutPipeErr : Option PErr
  startErr : Option PErr
  waitErr : Option PErr
deriving DecidableEq, Inhabited, Repr

/-- Modelled from the spec: `getErrStatus` is not among the provided
sources; per §4.5, "The exit code for a failed stage is derived from the
runner's error (if it carries one), else the pre-assigned sentinel". -/
def getErrStatus (e : PErr) (defCode : String) : String :=
  e.code.getD defCode

/-- What `executePipe` records when it jumps to `pipeError`: the failing
stage index (`errIndex`), the error, the value `cods[errIndex]` holds at
that moment (`"127"` after a failed `getCommand`, `"0"` after a failed
`Wait`, the initial `"255"` otherwise), and how many stages have been
marked `"success"`/`"0"` so far (all stages after the `Start` loop ran to
completion, the first `i` after a failed `Start` of stage `i`, none
earlier). -/
structure FailInfo where
  idx : Nat
  err : PErr
  preCode : String
  nSuccess : Nat
deriving DecidableEq, Repr

/-- First index (from `i`) at which a per-stage probe fires. -/
def findFirst (p : Nat → Stage → Option FailInfo) : Nat → List Stage → Option FailInfo
  | _, [] => none
  | i, s :: rest =>
    match p i s with
    | some fi => some fi
    | none => findFirst p (i + 1) rest

/-- Failure probe for the creation loop (shell.go:848-891): `getCommand`
(which pre-sets `cods[i] = "127"`), then `SetArgs`, then — for non-last
stages — `setRedirects`. -/
def createCheck (last i : Nat) (s : Stage) : Option FailInfo :=
  match s.getCmdErr with
  | some e => some ⟨i, e, "127", 0⟩
  | none =>
    match s.setArgsErr with
    | some e => some ⟨i, e, "255", 0⟩
    | none =>
      if i < last then s.redirectErr.map (fun e => ⟨i, e, "255", 0⟩) else none

/-- Failure probe for the wiring loop (shell.go:898-913): `StdoutPipe` on
stages `0..last-1`. -/
def wireCheck (last i : Nat) (s : Stage) : Option FailInfo :=
  if i < last then s.stdoutPipeErr.map (fun e => ⟨i, e, "255", 0⟩) else none

/-- Failure probe for the last stage's `setRedirects` (shell.go:918). -/
def lastRedirectCheck (stages : List Stage) : Option FailInfo :=
  match stages.getLast? with
  | some s => s.redirectErr.map (fun e => ⟨stages.length - 1, e, "255", 0⟩)
  | none => none

/-- Failure probe for the `Start` loop (shell.go:926-938): stage `i`
failing leaves stages `0..i-1` marked `"success"`/`"0"`. -/
def startCheck (i : Nat) (s : Stage) : Option FailInfo :=
  s.startErr.map (fun e => ⟨i, e, "255", i⟩)

/-- Failure probe for the `Wait` loop (shell.go:940-950): by then every
stage was marked `"success"`/`"0"` by the completed `Start` loop. -/
def waitCheck (n i : Nat) (s : Stage) : Option FailInfo :=
  s.waitErr.map (fun e => ⟨i, e, "0", n⟩)

/-- The first failure `executePipe` encounters, in the program order of
its phases; `none` when every phase of every stage succeeds. -/
def firstFailure (stages : List Stage) : Option FailInfo :=
  let last := stages.length - 1
  match findFirst (createCheck last) 0 stages with
  | some fi => some fi
  | none =>
    match findFirst (wireCheck last) 0 stages with
    | some fi => some fi
    | none =>
      match lastRedirectCheck stages with
      | some fi => some fi
      | none =>
        match findFirst startCheck 0 stages with
        | some fi => some fi
        | none => findFirst (waitCheck stages.length) 0 stages

/-- Indexing into the stage list (`nodeCommands[i]`). -/
def stageAt (stages : List Stage) (i : Nat) : Stage :=
  stages.getD i default

/-- The `errs` array at `pipeError` (shell.go:834-839, 936, 948, 956-960):
initialized to `"not started"`, set to `"success"` for the stages the
start/wait loops reached, and overwritten at the failing index with
`"none"` when that stage is ignored, else the error's message. -/
def pipeErrs (stages : List Stage) (fi : FailInfo) : List String :=
  (List.range stages.length).map fun j =>
    if j = fi.idx then (if (stageAt stages j).ignore then "none" else fi.err.msg)
    else if j < fi.nSuccess then "success" else "not started"

/-- The `cods` array at `pipeError` (shell.go:836-840, 937, 949, 962):
initialized to `"255"`, set to `"0"` for the stages the start/wait loops
reached, and overwritten at the failing index with
`getErrStatus(err, cods[errIndex])`. -/
def pipeCods (stages : List Stage) (fi : FailInfo) : List String :=
  (List.range stages.length).map fun j =>
    if j = fi.idx then getErrStatus fi.err fi.preCode
    else if j < fi.nSuccess then "0" else "255"

/-- `len(uniqCodes) == 1` (shell.go:967-975): all status codes equal. -/
def allEqual (l : List String) : Bool :=
  l.all (fun c => c == l.headD "")

/-- Outcome of `executePipe`: the value assigned to the `status` variable
(`none` when no assignment happens) and the returned error's message. -/
structure PipeResult where
  status : Option String
  err : Option String
deriving DecidableEq, Repr

/-- `Shell.executePipe` (shell.go:813-987).  Fewer than two commands is an
error before `status` is touched.  If every phase of every stage succeeds,
`status` is set to `"0"` and no error is returned.  Otherwise, at
`pipeError`: the failing stage's `errs` entry becomes `"none"` if that
stage is ignored, else the error message; its `cods` entry goes through
`getErrStatus`; `status` is the single code if all per-stage codes agree,
else the codes joined with `"|"`; and the returned error is the `"|"`-join
of the per-stage messages, suppressed (nil) when the failing stage is
ignored. -/
def executePipe (stages : List Stage) : PipeResult :=
  if stages.length < 2 then ⟨none, some "Pipe requires at least two commands."⟩
  else
    match firstFailure stages with
    | none => ⟨some "0", none⟩
    | some fi =>
      let errs := pipeErrs stages fi
      let cods := pipeCods stages fi
      let status := if allEqual cods then cods.headD "" else String.intercalate "|" cods
      ⟨some status,
        if (stageAt stages fi.idx).ignore then none
        else some (String.intercalate "|" errs)⟩

/-- A stage on which every call `executePipe` makes succeeds. -/
def stageOk (s : Stage) : Bool :=
  s.getCmdErr.isNone && s.setArgsErr.isNone && s.redirectErr.isNone &&
  s.stdoutPipeErr.isNone && s.startErr.isNone && s.waitErr.isNone

/-- A probe that fires on no stage of the list finds nothing. -/
theorem findFirst_eq_none {p : Nat → Stage → Option FailInfo} {l : List Stage}
    (i : Nat) (h : ∀ j s, s ∈ l → p j s = none) : findFirst p i l = none := by
  induction l generalizing i with
  | nil => rfl
  | cons s rest ih =>
    have hs : p i s = none := h i s (by simp)
    simp only [findFirst, hs]
    exact ih (i + 1) (fun j t ht => h j t (by simp [ht]))

/-- All-ok stages pass the creation probe. -/
theorem createCheck_of_ok {s : Stage} (h : stageOk s = true) (last j : Nat) :
    createCheck last j s = none := by
  simp only [stageOk, Bool.and_eq_true, Option.isNone_iff_eq_none] at h
  obtain ⟨⟨⟨⟨⟨h1, h2⟩, h3⟩, h4⟩, h5⟩, h6⟩ := h
  simp [createCheck, h1, h2, h3]

/-- All-ok stages pass the wiring probe. -/
theorem wireCheck_of_ok {s : Stage} (h : stageOk s = true) (last j : Nat) :
    wireCheck last j s = none := by
  simp only [stageOk, Bool.and_eq_true, Option.isNone_iff_eq_none] at h
  obtain ⟨⟨⟨⟨⟨h1, h2⟩, h3⟩, h4⟩, h5⟩, h6⟩ := h
  simp [wireCheck, h4]

/-- All-ok stages pass the last-redirect probe. -/
theorem lastRedirectCheck_of_ok {stages : List Stage}
    (h : ∀ s ∈ stages, stageOk s = true) : lastRedirectCheck stages = none := by
  unfold lastRedirectCheck
  cases hl : stages.getLast? with
  | none => rfl
  | some s =>
    have hmem : s ∈ stages := by
      obtain ⟨hne, heq⟩ := List.mem_getLast?_eq_getLast
        (show s ∈ stages.getLast? from by simp [hl, Option.mem_def])
      exact heq ▸ List.getLast_mem hne
    have hs := h s hmem
    simp only [stageOk, Bool.and_eq_true, Option.isNone_iff_eq_none] at hs
    obtain ⟨⟨⟨⟨⟨h1, h2⟩, h3⟩, h4⟩, h5⟩, h6⟩ := hs
    simp [h3]

/-- All-ok stages pass the start probe. -/
theorem startCheck_of_ok {s : Stage} (h : stageOk s = true) (j : Nat) :
    startCheck j s = none := by
  simp only [stageOk, Bool.and_eq_true, Option.isNone_iff_eq_none] at h
  obtain ⟨⟨⟨⟨⟨h1, h2⟩, h3⟩, h4⟩, h5⟩, h6⟩ := h
  simp [startCheck, h5]

/-- All-ok stages pass the wait probe. -/
theorem waitCheck_of_ok {s : Stage} (h : stageOk s = true) (n j : Nat) :
    waitCheck n j s = none := by
  simp only [stageOk, Bool.and_eq_true, Option.isNone_iff_eq_none] at h
  obtain ⟨⟨⟨⟨⟨h1, h2⟩, h3⟩, h4⟩, h5⟩, h6⟩ := h
  simp [waitCheck, h6]

/-- When every stage is fully ok, `executePipe` encounters no failure. -/
theorem firstFailure_of_ok {stages : List Stage}
    (h : stages.all stageOk = true) : firstFailure stages = none := by
  have hok : ∀ s ∈ stages, stageOk s = true := by
    simpa [List.all_eq_true] using h
  have c1 : findFirst (createCheck (stages.length - 1)) 0 stages = none :=
    findFirst_eq_none 0 (fun j s hs => createCheck_of_ok (hok s hs) _ j)
  have c2 : findFirst (wireCheck (stages.length - 1)) 0 stages = none :=
    findFirst_eq_none 0 (fun j s hs => wireCheck_of_ok (hok s hs) _ j)
  have c3 : lastRedirectCheck stages = none := lastRedirectCheck_of_ok hok
  have c4 : findFirst startCheck 0 stages = none :=
    findFirst_eq_none 0 (fun j s hs => startCheck_of_ok (hok s hs) j)
  have c5 : findFirst (waitCheck stages.length) 0 stages = none :=
    findFirst_eq_none 0 (fun j s hs => waitCheck_of_ok (hok s hs) _ j)
  simp [firstFailure, c1, c2, c3, c4, c5]

/-- C1: for every pipeline of at least two stages: if every stage is
created, started and waited successfully, `status` is set to `"0"` and no
error is returned; on a failure, `status` is set to the single per-stage
code when all codes agree and to the `"|"`-join of the codes otherwise;
when the failing stage is not ignored the returned error is the
`"|"`-join of the per-stage messages (in which the failing, non-ignored
stage contributes its error message); when the failing stage was marked
ignoring (source name prefixed with `-`), its entry in the message array
is `"none"` and the pipeline returns success. -/
theorem executePipe_spec (stages : List Stage) (h2 : 2 ≤ stages.length) :
    (stages.all stageOk = true → executePipe stages = ⟨some "0", none⟩) ∧
    (∀ fi, firstFailure stages = some fi →
      (executePipe stages).status =
        some (if allEqual (pipeCods stages fi) then (pipeCods stages fi).headD ""
              else String.intercalate "|" (pipeCods stages fi)) ∧
      ((stageAt stages fi.idx).ignore = true →
        (executePipe stages).err = none ∧
        pipeErrs stages fi =
          (List.range stages.length).map fun j =>
            if j = fi.idx then "none"
            else if j < fi.nSuccess then "success" else "not started") ∧
      ((stageAt stages fi.idx).ignore = false →
        (executePipe stages).err = some (String.intercalate "|" (pipeErrs stages fi)) ∧
        pipeErrs stages fi =
          (List.range stages.length).map fun j =>
            if j = fi.idx then fi.err.msg
            else if j < fi.nSuccess then "success" else "not started")) := by
  have hnlt : ¬ stages.length < 2 := by omega
  constructor
  · intro hok
    simp [executePipe, hnlt, firstFailure_of_ok hok]
  · intro fi hfi
    refine ⟨?_, ?_, ?_⟩
    · simp [executePipe, hnlt, hfi]
    · intro hign
      refine ⟨by simp [executePipe, hnlt, hfi, hign], ?_⟩
      unfold pipeErrs
      refine List.map_congr_left (fun j hj => ?_)
      by_cases hje : j = fi.idx
      · subst hje; simp [hign]
      · simp [hje]
    · intro hign
      refine ⟨by simp [executePipe, hnlt, hfi, hign], ?_⟩
      unfold pipeErrs
      refine List.map_congr_left (fun j hj => ?_)
      by_cases hje : j = fi.idx
      · subst hje; simp [hign]
      · simp [hje]

/-- A fully successful pipeline stage. -/
def pipeStageOkEx : Stage := ⟨false, none, none, none, none, none, none⟩

/-- A non-ignored stage whose `Wait` fails with message `"boom"` and exit
code `"1"`. -/
def pipeStageFailEx : Stage := ⟨false, none, none, none, none, none, some ⟨"boom", some "1"⟩⟩

/-- Witness for `executePipe_spec`: an all-ok two-stage pipeline, and one
whose second stage fails at `Wait`. -/
theorem executePipe_spec_witness :
    2 ≤ ([pipeStageOkEx, pipeStageOkEx] : List Stage).length ∧
    ([pipeStageOkEx, pipeStageOkEx] : List Stage).all stageOk = true ∧
    executePipe [pipeStageOkEx, pipeStageOkEx] = ⟨some "0", none⟩ ∧
    firstFailure [pipeStageOkEx, pipeStageFailEx] =
      some ⟨1, ⟨"boom", some "1"⟩, "0", 2⟩ ∧
    (executePipe [pipeStageOkEx, pipeStageFailEx]).status = some "0|1" ∧
    (executePipe [pipeStageOkEx, pipeStageFailEx]).err = some "success|boom" := by
  refine ⟨by decide, by decide, ?_, by decide, ?_, ?_⟩
  · exact (executePipe_spec [pipeStageOkEx, pipeStageOkEx] (by decide)).1 (by decide)
  · have h := ((executePipe_spec [pipeStageOkEx, pipeStageFailEx] (by decide)).2
      ⟨1, ⟨"boom", some "1"⟩, "0", 2⟩ (by decide)).1
    rw [h]; decide
  · have h := (((executePipe_spec [pipeStageOkEx, pipeStageFailEx] (by decide)).2
      ⟨1, ⟨"boom", some "1"⟩, "0", 2⟩ (by decide)).2.2 (by decide)).1
    rw [h]; decide

/-- A PATH-lookup error from `NewCmd`, probed for the `NotFound()`
marker interface (shell.go:1171-1177). -/
structure PathErr where
  msg : String
  notFound : Bool
deriving DecidableEq, Repr

/-- A command argument expression.  The filler the bindfn path appends is
`ast.NewStringExpr(token.NewFileInfo(0, 0), "", true)` — a quoted empty
string; other argument expression kinds are opaque here. -/
inductive CmdArg where
  | strE (s : String) (quoted : Bool)
  | otherE (tag : Nat)
deriving DecidableEq, Repr

/-- Outcome of `Shell.getCommand`: an external command runner, a bound
function together with the (possibly padded) argument list the command
node ends up with, or an error; each variant reports the ignore flag. -/
inductive GetCmdResult where
  | cmdR (name : String) (ignore : Bool)
  | fnR (args : List CmdArg) (ignore : Bool)
  | errR (ignore : Bool) (msg : String)
deriving DecidableEq, Repr

/-- The argument-padding loop (shell.go:1191-1195): from `i = len(args)`
while `i < len(fn.ArgNames())`, append one quoted empty-string argument
per iteration. -/
def fillLoop (nParams : Nat) (args : List CmdArg) (i : Nat) : List CmdArg :=
  if i < nParams then fillLoop nParams (args ++ [CmdArg.strE "" true]) (i + 1) else args
termination_by nParams - i
decreasing_by omega

/-- The `-` prefix handling of `getCommand` (shell.go:1157-1162): a name
longer than one byte starting with `-` marks the command as
error-ignoring and is stripped of the dash. -/
def stripIgnoreDash (name : String) : Bool × String :=
  if name.length > 1 && name.front == '-' then (true, name.drop 1) else (false, name)

/-- `Shell.getCommand` (shell.go:1146-1207).  The external lookup `NewCmd`
and the scope's bindfn table `Getbindfn` are passed as functions: `newCmd`
returns `none` on success and the lookup error otherwise; `bindfns`
returns the bound function's name and parameter names.  On a
`NotFound()` lookup error with a bind present: more arguments than
parameters is the `Too much arguments` error; otherwise missing trailing
parameters are filled with quoted empty-string arguments and the bound
function is returned as the command. -/
def getCommand (newCmd : String → Option PathErr)
    (bindfns : String → Option (String × List String))
    (name : String) (args : List CmdArg) : GetCmdResult :=
  let ignoreError := (stripIgnoreDash name).1
  let cmdName := (stripIgnoreDash name).2
  if cmdName = "" then .errR false "Empty command name..."
  else
    match newCmd cmdName with
    | none => .cmdR cmdName ignoreError
    | some e =>
      if e.notFound then
        match bindfns cmdName with
        | some (fnName, argNames) =>
          if args.length > argNames.length then
            .errR ignoreError ("Too much arguments for function '" ++ fnName ++
              "'. It expects " ++ toString argNames.length ++ " args, but given " ++
              toString args.length)
          else .fnR (fillLoop argNames.length args args.length) ignoreError
        | none => .errR ignoreError e.msg
      else .errR ignoreError e.msg

/-- The padding loop appends exactly the number of missing arguments. -/
theorem fillLoop_eq (nParams : Nat) (args : List CmdArg) (i : Nat) :
    fillLoop nParams args i =
      args ++ List.replicate (nParams - i) (CmdArg.strE "" true) := by
  generalize hk : nParams - i = k
  induction k generalizing args i with
  | zero =>
    rw [fillLoop]
    have hni : ¬ i < nParams := by omega
    simp [hni]
  | succ k ih =>
    have hlt : i < nParams := by omega
    rw [fillLoop, if_pos hlt, ih (args ++ [CmdArg.strE "" true]) (i + 1) (by omega)]
    simp [List.replicate_succ, List.append_assoc]

/-- C10: when PATH lookup fails with a `NotFound` error and the name is
resolved through the bindfn map, a command supplying more arguments than
the bound function has parameters fails with the `Too much arguments`
error, and one supplying fewer has the missing trailing parameters filled
with empty-string arguments before the function is returned as the
command. -/
theorem getCommand_bindfn_spec (newCmd : String → Option PathErr)
    (bindfns : String → Option (String × List String)) (name : String)
    (args : List CmdArg) (e : PathErr) (fnName : String) (argNames : List String)
    (hcmd : newCmd (stripIgnoreDash name).2 = some e)
    (hnf : e.notFound = true)
    (hbind : bindfns (stripIgnoreDash name).2 = some (fnName, argNames))
    (hne : (stripIgnoreDash name).2 ≠ "") :
    (args.length > argNames.length →
      getCommand newCmd bindfns name args =
        .errR (stripIgnoreDash name).1 ("Too much arguments for function '" ++ fnName ++
          "'. It expects " ++ toString argNames.length ++ " args, but given " ++
          toString args.length)) ∧
    (args.length ≤ argNames.length →
      getCommand newCmd bindfns name args =
        .fnR (args ++ List.replicate (argNames.length - args.length) (CmdArg.strE "" true))
          (stripIgnoreDash name).1) := by
  constructor
  · intro hgt
    simp [getCommand, hne, hcmd, hnf, hbind, hgt]
  · intro hle
    have hngt : ¬ args.length > argNames.length := by omega
    simp [getCommand, hne, hcmd, hnf, hbind, hngt, fillLoop_eq]

/-- A PATH lookup that always fails with a not-found error. -/
def newCmdNotFoundEx : String → Option PathErr := fun _ => some ⟨"not found", true⟩

/-- A bindfn table binding every name to `greet(a, b)`. -/
def bindfnsEx : String → Option (String × List String) := fun _ => some ("greet", ["a", "b"])

/-- Witness for `getCommand_bindfn_spec`: `hi x` resolved to the
two-parameter bound function `greet` gets one empty-string filler. -/
theorem getCommand_bindfn_spec_witness :
    newCmdNotFoundEx (stripIgnoreDash "hi").2 = some ⟨"not found", true⟩ ∧
    bindfnsEx (stripIgnoreDash "hi").2 = some ("greet", ["a", "b"]) ∧
    (stripIgnoreDash "hi").2 ≠ "" ∧
    getCommand newCmdNotFoundEx bindfnsEx "hi" [CmdArg.strE "x" false] =
      .fnR [CmdArg.strE "x" false, CmdArg.strE "" true] false := by
  refine ⟨rfl, rfl, by decide, ?_⟩
  have h := (getCommand_bindfn_spec newCmdNotFoundEx bindfnsEx "hi"
    [CmdArg.strE "x" false] ⟨"not found", true⟩ "greet" ["a", "b"]
    rfl rfl rfl (by decide)).2 (by decide)
  rw [h]; decide

/-- `strings.FieldsFunc` from the Go standard library: split at each run
of characters satisfying the predicate, dropping empty substrings. -/
def fieldsFunc (s : String) (p : Char → Bool) : List String :=
  ((s.data.splitOnP p).filter (fun f => !f.isEmpty)).map (fun f => String.mk f)

/-- The splitting predicate of `executeExecAssign` (shell.go:1484-1496):
a rune is a delimiter when some element of the `IFS` list is a string
(non-string elements are skipped) whose byte length is positive and whose
FIRST BYTE, cast to a rune, equals it (`rune(delim.Str()[0]) == r`). -/
def isIFSDelim (delims : List Obj) (c : Char) : Bool :=
  delims.any fun d =>
    match d with
    | .str s => s.utf8ByteSize > 0 && c.toNat == (s.toUTF8.get! 0).toNat
    | _ => false

/-- The `IFS` guard (shell.go:1483): splitting is active exactly when the
variable holds a `List` with at least one element. -/
def ifsDelims : Option Obj → Option (List Obj)
  | some (.list l) => if 0 < l.length then some l else none
  | _ => none

/-- The right-hand side of an exec-assignment, described by outcome: a
command or pipe contributes the bytes it wrote to the redirected stdout
buffer plus its error; a function invocation contributes its
`Results()` object (possibly nil) or its error. -/
inductive ExecRhs where
  | cmdE (out : String) (err : Option NashErr)
  | pipeE (out : String) (err : Option NashErr)
  | fnInvE (res : Except NashErr (Option Obj))

/-- Outcome of `executeExecAssign`: the binding performed on the
identifier (if any) and the returned error. -/
structure EAResult where
  binding : Option (String × Obj)
  err : Option NashErr

/-- `Shell.executeExecAssign` (shell.go:1443-1510).  Stdout is redirected
to a buffer for the duration (the rhs outcome's `out` is what the buffer
captured).  A fnInv rhs returns early: its error, the `Invalid
assignment` error when it produced no values, or a direct binding of its
result object — the buffer and `IFS` play no part.  For a command or pipe
rhs, the captured output is bound: split by `strings.FieldsFunc` with the
first-byte `IFS` predicate into a list when the `IFS` guard holds,
otherwise bound whole as a string; the rhs error is returned alongside. -/
def executeExecAssign (ifs : Option Obj) (ident : String) (rhs : ExecRhs) : EAResult :=
  match rhs with
  | .fnInvE (.error e) => ⟨none, some e⟩
  | .fnInvE (.ok none) =>
    ⟨none, some (.plainE "Invalid assignment from function that does not return values")⟩
  | .fnInvE (.ok (some o)) => ⟨some (ident, o), none⟩
  | .cmdE out err | .pipeE out err =>
    match ifsDelims ifs with
    | some l =>
      ⟨some (ident, Obj.list ((fieldsFunc out (isIFSDelim l)).map Obj.str)), err⟩
    | none => ⟨some (ident, Obj.str out), err⟩

/-- Counterexample to C6 as stated: with `IFS = ("ab")` — a non-empty
list whose element is NOT a single-character string — the claim requires
the whole captured output `"xay"` to be bound, but the code still splits,
on any rune equal to the delimiter string's first byte `'a'`, binding the
list `("x" "y")`. -/
theorem execAssign_ifs_counterexample :
    (executeExecAssign (some (Obj.list [Obj.str "ab"])) "x" (.cmdE "xay" none)).binding =
      some ("x", Obj.list [Obj.str "x", Obj.str "y"]) ∧
    (executeExecAssign (some (Obj.list [Obj.str "ab"])) "x" (.cmdE "xay" none)).binding ≠
      some ("x", Obj.str "xay") := by
  have h1 : (executeExecAssign (some (Obj.list [Obj.str "ab"])) "x"
      (.cmdE "xay" none)).binding = some ("x", Obj.list [Obj.str "x", Obj.str "y"]) := by
    rfl
  refine ⟨h1, ?_⟩
  rw [h1]
  simp

/-- C6 (amended): stdout is captured to a buffer for the rhs's duration;
for a command or pipe rhs, when `IFS` holds a non-empty list the captured
output is split at any character equal to the first byte of any string
element of that list and the pieces are bound to the identifier as a
list, otherwise the whole captured output is bound as a string, the rhs
error being returned either way; for a fnInv rhs the function's result
object is bound directly (an error if it returned no values) and no
capture-based binding or `IFS` splitting occurs. -/
theorem executeExecAssign_spec (ifs : Option Obj) (ident : String) (out : String)
    (err : Option NashErr) (o : Obj) (e : NashErr) :
    (∀ l, ifsDelims ifs = some l →
      ifs = some (Obj.list l) ∧ 0 < l.length ∧
      executeExecAssign ifs ident (.cmdE out err) =
        ⟨some (ident, Obj.list ((fieldsFunc out (isIFSDelim l)).map Obj.str)), err⟩ ∧
      executeExecAssign ifs ident (.pipeE out err) =
        ⟨some (ident, Obj.list ((fieldsFunc out (isIFSDelim l)).map Obj.str)), err⟩) ∧
    (ifsDelims ifs = none →
      executeExecAssign ifs ident (.cmdE out err) = ⟨some (ident, Obj.str out), err⟩ ∧
      executeExecAssign ifs ident (.pipeE out err) = ⟨some (ident, Obj.str out), err⟩) ∧
    executeExecAssign ifs ident (.fnInvE (.ok (some o))) = ⟨some (ident, o), none⟩ ∧
    executeExecAssign ifs ident (.fnInvE (.ok none)) =
      ⟨none, some (.plainE "Invalid assignment from function that does not return values")⟩ ∧
    executeExecAssign ifs ident (.fnInvE (.error e)) = ⟨none, some e⟩ := by
  refine ⟨?_, ?_, rfl, rfl, rfl⟩
  · intro l hl
    have hifs : ifs = some (Obj.list l) ∧ 0 < l.length := by
      cases ifs with
      | none => simp [ifsDelims] at hl
      | some ob =>
        cases ob with
        | str s => simp [ifsDelims] at hl
        | fn n => simp [ifsDelims] at hl
        | list m =>
          by_cases hm : 0 < m.length
          · simp [ifsDelims, hm] at hl
            exact ⟨by rw [hl], by rw [← hl]; exact hm⟩
          · simp [ifsDelims, hm] at hl
    exact ⟨hifs.1, hifs.2, by simp [executeExecAssign, hl], by simp [executeExecAssign, hl]⟩
  · intro hl
    exact ⟨by simp [executeExecAssign, hl], by simp [executeExecAssign, hl]⟩

/-- Witness for `executeExecAssign_spec`: `IFS = (" ")` splits the
captured output `"a b"` into `("a" "b")`. -/
theorem executeExecAssign_spec_witness :
    ifsDelims (some (Obj.list [Obj.str " "])) = some [Obj.str " "] ∧
    executeExecAssign (some (Obj.list [Obj.str " "])) "out" (.cmdE "a b" none) =
      ⟨some ("out", Obj.list [Obj.str "a", Obj.str "b"]), none⟩ := by
  refine ⟨rfl, ?_⟩
  have h := ((executeExecAssign_spec (some (Obj.list [Obj.str " "])) "out" "a b" none
    (Obj.str "") NashErr.stopWalkingE).1 [Obj.str " "] rfl).2.2.1
  rw [h]
  rfl

/-- Outcome of `executeImport`: delegate to `ExecFile` on a path, or an
error.  Error texts that interpolate values living outside the provided
sources (`Obj.Type()`'s string form, the shell's name) are abbreviated;
the `"NASHPATH must be n string"` typo is verbatim from the source. -/
inductive ImportResult where
  | execFile (path : String)
  | err (msg : String)
deriving DecidableEq, Repr

/-- The `.sh`-suffix test of `executeImport` (shell.go:757):
`len(fname) > 3 && fname[len(fname)-3:] == ".sh"`, stated on the UTF-8
bytes exactly as Go slices them; `[46, 115, 104]` are the bytes of
`".sh"`. -/
def hasShExt (fname : String) : Bool :=
  let bs := fname.toUTF8.data.toList
  bs.length > 3 && bs.drop (bs.length - 3) == [46, 115, 104]

/-- The candidate list `tries` of `executeImport` (shell.go:752-785), in
order: the literal path; without a `.sh` suffix, the path plus `".sh"`;
when a current file is set, `dir(currentFile)/<path>` and (again when no
suffix) its `".sh"` variant; then `$NASHPATH/lib/<path>` and its `".sh"`
variant.  `dirCur` stands for `path.Dir(sh.currentFile)`. -/
def importTries (dirCur currentFile fname dotDir : String) (hasExt : Bool) : List String :=
  [fname] ++ (if hasExt then [] else [fname ++ ".sh"]) ++
  (if currentFile ≠ "" then
    [dirCur ++ "/" ++ fname] ++ (if hasExt then [] else [dirCur ++ "/" ++ fname ++ ".sh"])
   else []) ++
  [dotDir ++ "/lib/" ++ fname] ++ (if hasExt then [] else [dotDir ++ "/lib/" ++ fname ++ ".sh"])

/-- The stat test of the candidate loop (shell.go:789-799): the
filesystem `fs` maps a path to `none` when `os.Stat` errs and to
`some isDir` otherwise; a candidate is taken when stat succeeds and the
mode is not a directory. -/
def statOkNonDir (fs : String → Option Bool) (p : String) : Bool :=
  match fs p with
  | some isDir => !isDir
  | none => false

/-- `Shell.executeImport` (shell.go:731-804).  The argument must evaluate
to a string (`arg` carries the evaluation outcome).  A path whose first
byte is `'/'` is executed directly (shell.go:748-750) — no candidate
search and no `NASHPATH` requirement.  Otherwise `NASHPATH` must be set
(else an error) and be a string (else the `must be n string` error); the
first candidate whose stat succeeds and is not a directory is executed;
if none qualifies, the error lists every candidate tried. -/
def executeImport (fs : String → Option Bool) (dirCur currentFile : String)
    (nashPath : Option Obj) (arg : Except String Obj) : ImportResult :=
  match arg with
  | .error e => .err e
  | .ok obj =>
    match obj with
    | .list _ => .err "Invalid type on import argument: list"
    | .fn _ => .err "Invalid type on import argument: function"
    | .str fname =>
      if 0 < fname.length && fname.front == '/' then .execFile fname
      else
        match nashPath with
        | none => .err "NASHPATH environment variable not set"
        | some (.str dotDir) =>
          let tries := importTries dirCur currentFile fname dotDir (hasShExt fname)
          match tries.find? (statOkNonDir fs) with
          | some p => .execFile p
          | none =>
            .err ("Failed to import path '" ++ fname ++
              "'. The locations below have been tried:\n \"" ++
              String.intercalate "\", \"" tries ++ "\"")
        | some _ => .err "NASHPATH must be n string"

/-- Counterexample to C7 as stated: `import "/a"` with `NASHPATH` unset
and an empty filesystem.  The claim requires an error (missing `NASHPATH`
is an error, and no candidate's stat succeeds), but the code executes the
literal absolute path directly without any search or `NASHPATH` check. -/
theorem import_absolute_counterexample :
    executeImport (fun _ => none) "" "" none (.ok (Obj.str "/a")) = .execFile "/a" ∧
    ∀ m, executeImport (fun _ => none) "" "" none (.ok (Obj.str "/a")) ≠ .err m := by
  have h1 : executeImport (fun _ => none) "" "" none (.ok (Obj.str "/a")) =
      .execFile "/a" := rfl
  refine ⟨h1, ?_⟩
  intro m h
  rw [h1] at h
  cases h

/-- C7 (amended): a path whose first byte is `'/'` is executed directly,
with no candidate search and no `NASHPATH` requirement.  For any other
path: a missing `NASHPATH` is an error and a non-string `NASHPATH` is the
`must be n string` error; otherwise the candidates of `importTries` are
probed in order and the first whose stat succeeds as a non-directory is
executed, while if none qualifies the error lists every candidate tried.
A failed argument evaluation propagates. -/
theorem executeImport_spec (fs : String → Option Bool) (dirCur currentFile : String)
    (np : Option Obj) (fname dotDir : String) (e : String) :
    executeImport fs dirCur currentFile np (.error e) = .err e ∧
    ((0 < fname.length && fname.front == '/') = true →
      executeImport fs dirCur currentFile np (.ok (Obj.str fname)) = .execFile fname) ∧
    ((0 < fname.length && fname.front == '/') = false →
      (np = none →
        executeImport fs dirCur currentFile np (.ok (Obj.str fname)) =
          .err "NASHPATH environment variable not set") ∧
      (∀ l, np = some (Obj.list l) →
        executeImport fs dirCur currentFile np (.ok (Obj.str fname)) =
          .err "NASHPATH must be n string") ∧
      (np = some (Obj.str dotDir) →
        (∀ p, (importTries dirCur currentFile fname dotDir (hasShExt fname)).find?
            (statOkNonDir fs) = some p →
          executeImport fs dirCur currentFile np (.ok (Obj.str fname)) = .execFile p ∧
          statOkNonDir fs p = true ∧
          p ∈ importTries dirCur currentFile fname dotDir (hasShExt fname)) ∧
        ((importTries dirCur currentFile fname dotDir (hasShExt fname)).find?
            (statOkNonDir fs) = none →
          executeImport fs dirCur currentFile np (.ok (Obj.str fname)) =
            .err ("Failed to import path '" ++ fname ++
              "'. The locations below have been tried:\n \"" ++
              String.intercalate "\", \""
                (importTries dirCur currentFile fname dotDir (hasShExt fname)) ++
              "\"")))) := by
    refine ⟨rfl, ?_, ?_⟩
    · intro habs
      simp [executeImport, habs]
    · intro habs
      refine ⟨?_, ?_, ?_⟩
      · intro hnp
        simp [executeImport, habs, hnp]
      · intro l hnp
        simp [executeImport, habs, hnp]
      · intro hnp
        constructor
        · intro p hp
          refine ⟨by simp [executeImport, habs, hnp, hp], ?_, ?_⟩
          · exact List.find?_some hp
          · exact List.mem_of_find?_eq_some hp
        · intro hp
          simp [executeImport, habs, hnp, hp]

/-- A filesystem containing the single regular file `util.sh`. -/
def importFsEx : String → Option Bool := fun p => if p == "util.sh" then some false else none

/-- Witness for `executeImport_spec`: `import "util"` with no current
file and `NASHPATH=/nash` resolves to `util.sh`, the second candidate. -/
theorem executeImport_spec_witness :
    (0 < "util".length && "util".front == '/') = false ∧
    (importTries "" "" "util" "/nash" (hasShExt "util")).find? (statOkNonDir importFsEx) =
      some "util.sh" ∧
    executeImport importFsEx "" "" (some (Obj.str "/nash")) (.ok (Obj.str "util")) =
      .execFile "util.sh" := by
  refine ⟨by decide, by rfl, ?_⟩
  exact ((((executeImport_spec importFsEx "" "" (some (Obj.str "/nash")) "util" "/nash"
    "").2.2 (by decide)).2.2 rfl).1 "util.sh" (by rfl)).1

/-- `strconv.Atoi`: an optional single sign followed by at least one
decimal digit, and nothing else.  (Go additionally range-errors outside
64 bits; indexes that large fail the bounds check here anyway.) -/
def parseAtoi (s : String) : Option Int :=
  let p : Int × List Char :=
    match s.data with
    | '-' :: rest => (-1, rest)
    | '+' :: rest => (1, rest)
    | l => (1, l)
  if p.2.isEmpty then none
  else if p.2.all (·.isDigit) then
    some (p.1 * ((p.2.foldl (fun a c => a * 10 + (c.toNat - 48)) 0 : Nat) : Int))
  else none

/-- The index sub-expression of an `IndexExpr`, by evaluation-relevant
kind: an `IntExpr` literal, a `VarExpr` (carrying the outcome of
evaluating that variable), or any OTHER node kind.  The last is reachable
from the parser: in `$a[$b[0]]` the index is itself an `IndexExpr`
(tree.go:212-247, `parseVariable` recursing for a variable index). -/
inductive IdxE where
  | intE (n : Int)
  | varE (res : Except String Obj)
  | otherE

/-- The index-resolution block of `evalIndexedVar` (shell.go:1296-1334):
`indexNum` starts at the zero value 0; an `IntExpr` stores its value, a
`VarExpr` must evaluate to a string that `strconv.Atoi` accepts — but any
OTHER index node kind matches neither `if` branch and leaves `indexNum`
at 0 with no error.  Error texts are abbreviated (the source interpolates
the offending values). -/
def evalIndex : IdxE → Except String Int
  | .intE n => .ok n
  | .varE (.error e) => .error e
  | .varE (.ok (Obj.str s)) =>
    match parseAtoi s with
    | some n => .ok n
    | none => .error ("invalid syntax: " ++ s)
  | .varE (.ok _) => .error "Invalid object type on index value"
  | .otherE => .ok 0

/-- `Shell.evalIndexedVar` (shell.go:1296-1343): evaluate the indexed
variable (failures propagate), require a `List`, resolve the index, then
bounds-check `indexNum < 0 || indexNum >= len(values)` before returning
`values[indexNum]`. -/
def evalIndexedVar (vres : Except String Obj) (idx : IdxE) : Except String Obj :=
  match vres with
  | .error e => .error e
  | .ok (Obj.list values) =>
    match evalIndex idx with
    | .error e => .error e
    | .ok n =>
      if n < 0 ∨ (values.length : Int) ≤ n then .error "Index out of bounds"
      else .ok (values.getD n.toNat (Obj.str ""))
  | .ok _ => .error "Invalid indexing of non-list variable"

/-- Counterexample to C8 as stated: an index of any node kind other than
an integer literal or a variable (here `otherE`, e.g. the nested index of
`$a[$b[0]]`) is NOT an error — `indexNum` silently stays 0 and element 0
is returned. -/
theorem evalIndexedVar_counterexample :
    evalIndexedVar (.ok (Obj.list [Obj.str "a", Obj.str "b"])) .otherE =
      .ok (Obj.str "a") ∧
    ∀ m, evalIndexedVar (.ok (Obj.list [Obj.str "a", Obj.str "b"])) .otherE ≠
      .error m := by
  have h1 : evalIndexedVar (.ok (Obj.list [Obj.str "a", Obj.str "b"])) .otherE =
      .ok (Obj.str "a") := rfl
  refine ⟨h1, ?_⟩
  intro m h
  rw [h1] at h
  cases h

/-- C8 (amended): the indexed variable must evaluate to a `List` (any
other type errs, and an evaluation failure propagates); an integer
literal index or a variable index whose string parses as a decimal
integer is used as is, a variable index of non-string type or unparsable
string errs, and an index of any other node kind silently resolves to 0;
the resolved integer `i` is bounds-checked, so evaluation returns the
`i`-th element exactly when `0 ≤ i < length`, errs otherwise, and any
successful evaluation returns an element of the list at an in-bounds
position — the list is never accessed outside its bounds. -/
theorem evalIndexedVar_spec :
    (∀ e idx, evalIndexedVar (.error e) idx = .error e) ∧
    (∀ s idx, evalIndexedVar (.ok (Obj.str s)) idx =
      .error "Invalid indexing of non-list variable") ∧
    (∀ f idx, evalIndexedVar (.ok (Obj.fn f)) idx =
      .error "Invalid indexing of non-list variable") ∧
    (∀ values (n : Int), ¬ (n < 0 ∨ (values.length : Int) ≤ n) →
      evalIndexedVar (.ok (Obj.list values)) (.intE n) =
        .ok (values.getD n.toNat (Obj.str ""))) ∧
    (∀ values (n : Int), (n < 0 ∨ (values.length : Int) ≤ n) →
      evalIndexedVar (.ok (Obj.list values)) (.intE n) = .error "Index out of bounds") ∧
    (∀ values s n, parseAtoi s = some n → ¬ (n < 0 ∨ (values.length : Int) ≤ n) →
      evalIndexedVar (.ok (Obj.list values)) (.varE (.ok (Obj.str s))) =
        .ok (values.getD n.toNat (Obj.str ""))) ∧
    (∀ values s, parseAtoi s = none →
      evalIndexedVar (.ok (Obj.list values)) (.varE (.ok (Obj.str s))) =
        .error ("invalid syntax: " ++ s)) ∧
    (∀ values l, evalIndexedVar (.ok (Obj.list values)) (.varE (.ok (Obj.list l))) =
      .error "Invalid object type on index value") ∧
    (∀ values e, evalIndexedVar (.ok (Obj.list values)) (.varE (.error e)) = .error e) ∧
    (∀ values idx r, evalIndexedVar (.ok (Obj.list values)) idx = .ok r →
      ∃ i : Nat, i < values.length ∧ r = values.getD i (Obj.str "")) := by
  refine ⟨fun e idx => rfl, fun s idx => rfl, fun f idx => rfl, ?_, ?_, ?_, ?_,
    fun values l => rfl, fun values e => rfl, ?_⟩
  · intro values n hb
    simp [evalIndexedVar, evalIndex, hb]
  · intro values n hb
    simp [evalIndexedVar, evalIndex, hb]
  · intro values s n hp hb
    simp [evalIndexedVar, evalIndex, hp, hb]
  · intro values s hp
    simp [evalIndexedVar, evalIndex, hp]
  · intro values idx r h
    unfold evalIndexedVar at h
    cases he : evalIndex idx with
    | error e =>
      rw [he] at h
      dsimp only at h
      cases h
    | ok n =>
      rw [he] at h
      dsimp only at h
      by_cases hb : n < 0 ∨ (values.length : Int) ≤ n
      · rw [if_pos hb] at h; cases h
      · rw [if_neg hb] at h
        injection h with h'
        push_neg at hb
        exact ⟨n.toNat, by omega, h'.symm⟩

/-- Witness for `evalIndexedVar_spec`: `$l[1]` and `$l[$i]` with
`i = "1"` on the two-element list `("a" "b")`. -/
theorem evalIndexedVar_spec_witness :
    ¬ ((1 : Int) < 0 ∨ (([Obj.str "a", Obj.str "b"].length : Int) ≤ 1)) ∧
    parseAtoi "1" = some 1 ∧
    evalIndexedVar (.ok (Obj.list [Obj.str "a", Obj.str "b"])) (.intE 1) =
      .ok (Obj.str "b") ∧
    evalIndexedVar (.ok (Obj.list [Obj.str "a", Obj.str "b"])) (.varE (.ok (Obj.str "1"))) =
      .ok (Obj.str "b") := by
  refine ⟨by decide, by decide, ?_, ?_⟩
  · exact evalIndexedVar_spec.2.2.2.1 [Obj.str "a", Obj.str "b"] 1 (by decide)
  · exact evalIndexedVar_spec.2.2.2.2.2.1 [Obj.str "a", Obj.str "b"] "1" 1
      (by decide) (by decide)

end NashShell
